import Mathlib

/-!
Verification of the ARPP repository (arctan-based AMM pricing, liquidity pool,
Monte Carlo simulation driver).

Modelling conventions:

* `rust_decimal::Decimal` values are modelled as `ℚ`.  All balance/price
  arithmetic in the source (`+`, `-`, `*`, `/`, `abs`, `max`, `min`, `clamp`,
  comparisons) is exact decimal arithmetic, which `ℚ` reproduces; the 96-bit
  mantissa overflow/rounding limits of `Decimal` are out of scope for the
  claims treated here.  `Decimal` division by zero panics in Rust; in `ℚ` it
  yields `0`.  No claim below depends on a division by zero on a reachable
  path.
* The source computes `atan` by converting a `Decimal` to `f64`, applying
  `libm::atan`, and converting back (`src/arpp/formula.rs`).  That composite
  map is not representable exactly here, so every definition that uses it is
  parametrised by a function `f : ℚ → ℚ` standing for it.  Theorems assume of
  `f` only facts that certainly hold of the real composite (for example
  `f 0 = 0`: the conversions preserve zero and IEEE `atan` maps zero to zero),
  and witnesses instantiate `f` with simple concrete functions satisfying the
  assumed facts.
* Likewise `Decimal::sqrt` (used only inside the metrics accumulator) is a
  parameter `sq : ℚ → Option ℚ` (`None` models the `None` result on negative
  input).
* Randomness is made explicit: each random draw of the source becomes an
  argument.  `rand_distr::Normal::new(mu, sigma).sample` is `mu + sigma * z`
  where `z` is the underlying standard-normal draw, which is exactly how the
  library computes it, so the draw `z` is the parameter.
* Rust methods taking `&mut self` and returning `Result` are modelled as
  functions returning `LiquidityPool × Except PoolError _`: the first
  component is the post-state (the source mutates only after all checks, so
  on an error the post-state equals the pre-state), the second the returned
  `Result`.
-/

deriving instance DecidableEq for Except

/-- Error values of the pool operations.  The source uses boxed string
errors; each constructor corresponds to one family of `return Err(...)`
sites in `src/arpp/liquidity_pool.rs`:
`invalidAmount` = "Amounts must be positive" / "Amount must be positive",
`insufficientLiquidity` = "Insufficient liquidity" (remove_liquidity),
`insufficientA` = "Insufficient liquidity of A" (swap_a_to_b precheck),
`insufficientB` = "Insufficient liquidity of B" (swap_b_to_a precheck),
`insufficientSwap` = "Insufficient liquidity to perform swap" (either swap,
after quoting). -/
inductive PoolError where
  | invalidAmount : PoolError
  | insufficientLiquidity : PoolError
  | insufficientA : PoolError
  | insufficientB : PoolError
  | insufficientSwap : PoolError
deriving DecidableEq

/-- The liquidity pool state (`LiquidityPool` in
`src/arpp/liquidity_pool.rs`): two token balances, the reference price and
the two pricing-curve parameters. -/
structure LiquidityPool where
  token_a : ℚ
  token_b : ℚ
  p_ref : ℚ
  alpha : ℚ
  beta : ℚ
deriving DecidableEq

/-- Modelled from the spec: `token_ratio` is imported from
`crate::arpp::formula` but its definition is not among the provided source
files.  The spec calls `r` the pool's imbalance ratio fed to the pricing
curve.  Its orientation is pinned by the repository's own tests:
`test_unbalanced_pool` (balances 500/2000 must price below 1),
`test_extreme_imbalance` (balances 1/1000000 must price below 1),
`test_price_changes_after_swap` (price rises after `swap_a_to_b`), and the
exact values asserted in `test_swap_with_extreme_price_reference`.  All of
them force `token_ratio(a, b) = a / b`. -/
def token_ratio (a b : ℚ) : ℚ := a / b

/-- The pricing formula `arpp` of `src/arpp/formula.rs`:
`p_ref * (1 + alpha * atan(beta * (r - 1)))`, with `f` standing for the
source's `Decimal → f64 → libm::atan → Decimal` composite. -/
def arpp (f : ℚ → ℚ) (p_ref alpha beta r : ℚ) : ℚ :=
  p_ref * (1 + alpha * f (beta * (r - 1)))

/-- `LiquidityPool::add_liquidity`: both amounts must be strictly positive,
otherwise the invalid-amount error; on success both balances increase. -/
def add_liquidity (p : LiquidityPool) (amount_a amount_b : ℚ) :
    LiquidityPool × Except PoolError Unit :=
  if amount_a ≤ 0 ∨ amount_b ≤ 0 then (p, .error .invalidAmount)
  else ({ p with token_a := p.token_a + amount_a, token_b := p.token_b + amount_b }, .ok ())

/-- `LiquidityPool::remove_liquidity`: amounts strictly positive and each
bounded by the corresponding balance; on success both balances decrease. -/
def remove_liquidity (p : LiquidityPool) (amount_a amount_b : ℚ) :
    LiquidityPool × Except PoolError Unit :=
  if amount_a ≤ 0 ∨ amount_b ≤ 0 then (p, .error .invalidAmount)
  else if amount_a > p.token_a ∨ amount_b > p.token_b then (p, .error .insufficientLiquidity)
  else ({ p with token_a := p.token_a - amount_a, token_b := p.token_b - amount_b }, .ok ())

/-- `LiquidityPool::swap_a_to_b`: checks `0 < amount_a ≤ token_a`, quotes
`arpp` at `token_ratio(token_a, token_b)`, delivers
`amount_b = price * amount_a` if `0 < amount_b ≤ token_b`, and then (and
only then) updates the balances. -/
def swap_a_to_b (f : ℚ → ℚ) (p : LiquidityPool) (amount_a : ℚ) :
    LiquidityPool × Except PoolError ℚ :=
  if amount_a ≤ 0 then (p, .error .invalidAmount)
  else if amount_a > p.token_a then (p, .error .insufficientA)
  else
    let amount_b := arpp f p.p_ref p.alpha p.beta (token_ratio p.token_a p.token_b) * amount_a
    if amount_b ≤ 0 ∨ amount_b > p.token_b then (p, .error .insufficientSwap)
    else ({ p with token_a := p.token_a + amount_a, token_b := p.token_b - amount_b },
          .ok amount_b)

/-- `LiquidityPool::swap_b_to_a`: checks `0 < amount_b ≤ token_b`, quotes
`arpp` at `token_ratio(token_a, token_b)` (the same argument order as
`swap_a_to_b` in the source), delivers `amount_a = price * amount_b` if
`0 < amount_a ≤ token_a`, then updates the balances. -/
def swap_b_to_a (f : ℚ → ℚ) (p : LiquidityPool) (amount_b : ℚ) :
    LiquidityPool × Except PoolError ℚ :=
  if amount_b ≤ 0 then (p, .error .invalidAmount)
  else if amount_b > p.token_b then (p, .error .insufficientB)
  else
    let amount_a := arpp f p.p_ref p.alpha p.beta (token_ratio p.token_a p.token_b) * amount_b
    if amount_a ≤ 0 ∨ amount_a > p.token_a then (p, .error .insufficientSwap)
    else ({ p with token_a := p.token_a - amount_a, token_b := p.token_b + amount_b },
          .ok amount_a)

/-- `LiquidityPool::get_price`: the current quote from the current balances
and reference price; no mutation. -/
def get_price (f : ℚ → ℚ) (p : LiquidityPool) : ℚ :=
  arpp f p.p_ref p.alpha p.beta (token_ratio p.token_a p.token_b)

/-- `random_walk_price` of `src/simulation/random_walk.rs`.  The source
draws `new_std_dev = |Normal(std_dev, std_dev_of_std_dev).sample|`, then
`price_change = Normal(0, new_std_dev).sample`, and returns
`max(last_price + price_change, MIN_PRICE)` with `MIN_PRICE = 0.1`.
`rand_distr` computes `Normal(mu, sigma).sample` as `mu + sigma * z` with
`z` a standard-normal draw, so the two draws `z1 z2` are parameters. -/
def random_walk_price (last_price std_dev std_dev_of_std_dev z1 z2 : ℚ) : ℚ :=
  let new_std_dev := |std_dev + std_dev_of_std_dev * z1|
  let price_change := new_std_dev * z2
  max (last_price + price_change) (1 / 10)

/-- `LiquidityPool::set_p_ref`: replaces `p_ref` with
`random_walk_price(p_ref, alpha, beta)`; balances untouched. -/
def set_p_ref (p : LiquidityPool) (alpha beta z1 z2 : ℚ) : LiquidityPool :=
  { p with p_ref := random_walk_price p.p_ref alpha beta z1 z2 }

/-- `MonteCarloSimulation::add_liquidity_if_needed`
(`src/simulation/monte_carlo.rs`): reads both balances once; if
`token_a < token_b / 2` it calls `add_liquidity(token_b/2 - token_a, 0)` and
propagates any error (the source's `?`); then, symmetrically for B.  Note
the second argument of each inner call is literally `dec!(0)`. -/
def add_liquidity_if_needed (p : LiquidityPool) :
    LiquidityPool × Except PoolError Unit :=
  let ta := p.token_a
  let tb := p.token_b
  let step1 :=
    if ta < tb / 2 then add_liquidity p (tb / 2 - ta) 0 else (p, .ok ())
  match step1 with
  | (p1, .error e) => (p1, .error e)
  | (p1, .ok ()) =>
    if tb < ta / 2 then add_liquidity p1 0 (ta / 2 - tb) else (p1, .ok ())

/-- A pool snapshot (`PoolMetricsStep` in `src/analysis/metrics.rs`). -/
structure PoolMetricsStep where
  price : ℚ
  p_ref : ℚ
  balances_a : ℚ
  balances_b : ℚ
  ratio : ℚ
deriving DecidableEq

/-- The metrics accumulator (`PoolMetrics` in `src/analysis/metrics.rs`):
the recorded snapshots plus four running sums. -/
structure PoolMetrics where
  steps : List PoolMetricsStep
  price_volatility : ℚ
  liquidity_depth : ℚ
  trading_volume : ℚ
  impermanent_loss : ℚ
deriving DecidableEq

/-- `PoolMetrics::new` (identical to the derived `Default`): empty step list
and all four accumulators zero. -/
def PoolMetrics.new : PoolMetrics :=
  { steps := [], price_volatility := 0, liquidity_depth := 0,
    trading_volume := 0, impermanent_loss := 0 }

/-- `calculate_price_volatility`: 1 on any negative input, the 0/1
convention on a zero initial price, otherwise the relative change clamped
to [0, 1]. -/
def calculate_price_volatility (current_price initial_price : ℚ) : ℚ :=
  if current_price < 0 ∨ initial_price < 0 then 1
  else if initial_price = 0 then (if current_price = 0 then 0 else 1)
  else min (max (|(current_price - initial_price) / initial_price|) 0) 1

/-- `calculate_liquidity_depth`: `sqrt(token_a * token_b)`, substituting 0
when `Decimal::sqrt` returns `None`; `sq` stands for `Decimal::sqrt`. -/
def calculate_liquidity_depth (sq : ℚ → Option ℚ) (token_a token_b : ℚ) : ℚ :=
  (sq (token_a * token_b)).getD 0

/-- `calculate_trading_volume`: the sum of absolute balance changes against
the initial snapshot. -/
def calculate_trading_volume (token_a token_b initial_a initial_b : ℚ) : ℚ :=
  |token_a - initial_a| + |token_b - initial_b|

/-- `calculate_impermanent_loss`: 0 on any negative input, the 0/1
conventions on zero divisors, otherwise the relative difference between
pool value and held value clamped to [-1, 1]. -/
def calculate_impermanent_loss (token_a token_b initial_a initial_b
    current_price initial_price : ℚ) : ℚ :=
  if token_a < 0 ∨ token_b < 0 ∨ initial_a < 0 ∨ initial_b < 0 ∨
      current_price < 0 ∨ initial_price < 0 then 0
  else if initial_price = 0 then (if current_price = 0 then 0 else 1)
  else
    let value_if_held := initial_a * current_price / initial_price + initial_b
    let value_in_pool := token_a * current_price + token_b
    if value_if_held = 0 then (if value_in_pool = 0 then 0 else 1)
    else min (max ((value_in_pool - value_if_held) / value_if_held) (-1)) 1

/-- `PoolMetrics::update_metrics`: adds the four per-step contributions,
each comparing the current step to the fixed initial step. -/
def PoolMetrics.update_metrics (sq : ℚ → Option ℚ) (m : PoolMetrics)
    (current_step initial_step : PoolMetricsStep) : PoolMetrics :=
  { m with
    price_volatility := m.price_volatility +
      calculate_price_volatility current_step.price initial_step.price,
    liquidity_depth := m.liquidity_depth +
      calculate_liquidity_depth sq current_step.balances_a current_step.balances_b,
    trading_volume := m.trading_volume +
      calculate_trading_volume current_step.balances_a current_step.balances_b
        initial_step.balances_a initial_step.balances_b,
    impermanent_loss := m.impermanent_loss +
      calculate_impermanent_loss current_step.balances_a current_step.balances_b
        initial_step.balances_a initial_step.balances_b
        current_step.price initial_step.price }

/-- `accumulate_pool_metrics`: snapshots the pool (note the source computes
this snapshot's imbalance as `token_b / token_a` here, unlike
`token_ratio`), pushes the snapshot, and updates the running sums. -/
def accumulate_pool_metrics (f : ℚ → ℚ) (sq : ℚ → Option ℚ)
    (pool : LiquidityPool) (metrics : PoolMetrics)
    (initial_step : PoolMetricsStep) : PoolMetrics :=
  let current_step : PoolMetricsStep :=
    { price := get_price f pool, p_ref := pool.p_ref,
      balances_a := pool.token_a, balances_b := pool.token_b,
      ratio := pool.token_b / pool.token_a }
  let metrics := { metrics with steps := metrics.steps ++ [current_step] }
  metrics.update_metrics sq current_step initial_step

/-- The simulation aggregate (`SimulationResult` in
`src/simulation/result.rs`). -/
structure SimulationResult where
  average_price_change : ℚ
  average_liquidity_change : ℚ
  max_price : ℚ
  min_price : ℚ
  metrics : PoolMetrics
deriving DecidableEq

/-- `SimulationResult::default`: all numeric fields zero and default
(empty) metrics. -/
def SimulationResult.defaultResult : SimulationResult :=
  { average_price_change := 0, average_liquidity_change := 0,
    max_price := 0, min_price := 0, metrics := PoolMetrics.new }

/-- `Decimal::MAX`, the largest representable decimal, used by `run` to
seed the running min (and its negation, `Decimal::MIN`, the running max). -/
def decimalMax : ℚ := 79228162514264337593543950335

/-- The simulation parameters (`MonteCarloSimulation` minus the strategy
object and the two unused history vectors). -/
structure MonteCarloSimulation where
  pool : LiquidityPool
  iterations : ℕ
  steps_per_iteration : ℕ
  alpha : ℚ
  beta : ℚ

/-- A trading strategy as seen by the driver (`Box<dyn TradingStrategy>`):
given the iteration and step indices (which address this call's random
draws), the pool and the observed price, it returns the possibly-mutated
pool and the `Result` of `execute`. -/
def Strategy : Type :=
  ℕ → ℕ → LiquidityPool → ℚ → LiquidityPool × Except PoolError Unit

/-- One step of the inner loop of `MonteCarloSimulation::run`: read the
current price, advance `p_ref` by the random walk, accumulate metrics
against the run's fixed initial snapshot, run the liquidity top-up
(propagating its error, the source's `?`), then run the strategy, keeping
its pool mutations but discarding its error (the source's
`if let Err(e) = ... { debug!(...) }`). -/
def run_step (f : ℚ → ℚ) (sq : ℚ → Option ℚ) (strat : Strategy)
    (walk : ℕ → ℕ → ℚ × ℚ) (alpha beta : ℚ) (initial_step : PoolMetricsStep)
    (i j : ℕ) (state : LiquidityPool × PoolMetrics) :
    Except PoolError (LiquidityPool × PoolMetrics) :=
  let (pool, metrics) := state
  let current_price := get_price f pool
  let z := walk i j
  let pool := set_p_ref pool alpha beta z.1 z.2
  let metrics := accumulate_pool_metrics f sq pool metrics initial_step
  match add_liquidity_if_needed pool with
  | (_, .error e) => .error e
  | (pool, .ok ()) =>
    let pool := (strat i j pool current_price).1
    .ok (pool, metrics)

/-- Accumulator of the outer loop of `run`: pool, metrics, the two running
totals and the running max/min of the per-iteration final price. -/
structure RunAcc where
  pool : LiquidityPool
  metrics : PoolMetrics
  total_price_change : ℚ
  total_liquidity_change : ℚ
  max_price : ℚ
  min_price : ℚ

/-- One iteration of the outer loop of `run`: record the initial price and
total liquidity, run `steps_per_iteration` inner steps, then accumulate
`|final - initial|` for price and liquidity and update the max/min. -/
def run_iteration (f : ℚ → ℚ) (sq : ℚ → Option ℚ) (strat : Strategy)
    (walk : ℕ → ℕ → ℚ × ℚ) (alpha beta : ℚ) (steps_per_iteration : ℕ)
    (initial_step : PoolMetricsStep) (acc : RunAcc) (i : ℕ) :
    Except PoolError RunAcc := do
  let initial_price := get_price f acc.pool
  let initial_liquidity := acc.pool.token_a + acc.pool.token_b
  let (pool, metrics) ← (List.range steps_per_iteration).foldlM
    (fun state j => run_step f sq strat walk alpha beta initial_step i j state)
    (acc.pool, acc.metrics)
  let final_price := get_price f pool
  let final_liquidity := pool.token_a + pool.token_b
  pure { pool := pool, metrics := metrics,
         total_price_change := acc.total_price_change + |final_price - initial_price|,
         total_liquidity_change :=
           acc.total_liquidity_change + |final_liquidity - initial_liquidity|,
         max_price := max acc.max_price final_price,
         min_price := min acc.min_price final_price }

/-- `MonteCarloSimulation::run`: if `iterations == 0` return the default
result at once; otherwise take the run's fixed initial snapshot, fold the
iterations (any iteration's top-up error aborts the whole run, the
source's `?`), and divide the totals by the iteration count. -/
def run (f : ℚ → ℚ) (sq : ℚ → Option ℚ) (strat : Strategy)
    (walk : ℕ → ℕ → ℚ × ℚ) (sim : MonteCarloSimulation) :
    Except PoolError SimulationResult :=
  if sim.iterations = 0 then .ok SimulationResult.defaultResult
  else do
    let initial_step : PoolMetricsStep :=
      { price := get_price f sim.pool, p_ref := sim.pool.p_ref,
        balances_a := sim.pool.token_a, balances_b := sim.pool.token_b,
        ratio := token_ratio sim.pool.token_a sim.pool.token_b }
    let acc0 : RunAcc :=
      { pool := sim.pool, metrics := PoolMetrics.new,
        total_price_change := 0, total_liquidity_change := 0,
        max_price := -decimalMax, min_price := decimalMax }
    let acc ← (List.range sim.iterations).foldlM
      (run_iteration f sq strat walk sim.alpha sim.beta sim.steps_per_iteration
        initial_step) acc0
    pure { average_price_change := acc.total_price_change / (sim.iterations : ℚ),
           average_liquidity_change := acc.total_liquidity_change / (sim.iterations : ℚ),
           max_price := acc.max_price, min_price := acc.min_price,
           metrics := acc.metrics }

/-- Parameters of the random trading strategy (`RandomStrategy` in
`src/simulation/strategies.rs`); `swap_probability` is an `f64` in the
source, compared against a uniform `[0,1)` draw. -/
structure RandomStrategy where
  swap_probability : ℚ
  max_swap_amount : ℚ

/-- `RandomStrategy::execute`: if the uniform draw `q` is below the swap
probability, cap the candidate amounts at half of each balance and at
`max_swap_amount`, draw `amount = u * max_swap_amount` (with `u` the second
uniform draw), pick a direction with `dir`, and run the corresponding swap,
returning its `Result` unchanged (the source's `?` on each swap call).  The
ignored price argument of the source is omitted. -/
def RandomStrategy.execute (f : ℚ → ℚ) (s : RandomStrategy)
    (pool : LiquidityPool) (q u : ℚ) (dir : Bool) :
    LiquidityPool × Except PoolError Unit :=
  if q < s.swap_probability then
    let amount_a := min (pool.token_a / 2) s.max_swap_amount
    let amount_b := min (pool.token_b / 2) s.max_swap_amount
    let amount := u * s.max_swap_amount
    if dir then
      let r := swap_a_to_b f pool (min amount amount_a)
      (r.1, r.2.map fun _ => ())
    else
      let r := swap_b_to_a f pool (min amount amount_b)
      (r.1, r.2.map fun _ => ())
  else (pool, .ok ())

/-- The pricing formula of the source read over the real numbers, with the
exact real arctangent in place of the `f64` detour: the source documents
`ARPP = p_ref * (1 + alpha * atan(beta * (r - 1)))` and its implementation
approximates this within the accuracy of `f64` `atan` and the
`Decimal`/`f64` conversions.  Used for the claims about the mathematical
shape of the curve. -/
noncomputable def arppReal (p_ref alpha beta r : ℝ) : ℝ :=
  p_ref * (1 + alpha * Real.arctan (beta * (r - 1)))

/-- Success inversion for `swap_a_to_b`: a successful swap was for a
positive amount within the A balance, delivered the quoted multiple of the
input, positive and within the B balance, and moved exactly those amounts. -/
theorem swap_a_to_b_ok {f : ℚ → ℚ} {p q : LiquidityPool} {x b : ℚ}
    (h : swap_a_to_b f p x = (q, .ok b)) :
    0 < x ∧ x ≤ p.token_a ∧
    b = arpp f p.p_ref p.alpha p.beta (token_ratio p.token_a p.token_b) * x ∧
    0 < b ∧ b ≤ p.token_b ∧
    q = ⟨p.token_a + x, p.token_b - b, p.p_ref, p.alpha, p.beta⟩ := by
  simp only [swap_a_to_b] at h
  split_ifs at h with h1 h2 h3
  · exact absurd (congrArg Prod.snd h) (by simp)
  · exact absurd (congrArg Prod.snd h) (by simp)
  · exact absurd (congrArg Prod.snd h) (by simp)
  · push_neg at h1 h2 h3
    injection h with hq hb
    injection hb with hb
    subst hq
    subst hb
    exact ⟨h1, h2, rfl, h3.1, h3.2, rfl⟩

/-- Success inversion for `swap_b_to_a`, symmetric to `swap_a_to_b_ok`,
with the same un-reciprocated `token_ratio p.token_a p.token_b` quote. -/
theorem swap_b_to_a_ok {f : ℚ → ℚ} {p q : LiquidityPool} {x a : ℚ}
    (h : swap_b_to_a f p x = (q, .ok a)) :
    0 < x ∧ x ≤ p.token_b ∧
    a = arpp f p.p_ref p.alpha p.beta (token_ratio p.token_a p.token_b) * x ∧
    0 < a ∧ a ≤ p.token_a ∧
    q = ⟨p.token_a - a, p.token_b + x, p.p_ref, p.alpha, p.beta⟩ := by
  simp only [swap_b_to_a] at h
  split_ifs at h with h1 h2 h3
  · exact absurd (congrArg Prod.snd h) (by simp)
  · exact absurd (congrArg Prod.snd h) (by simp)
  · exact absurd (congrArg Prod.snd h) (by simp)
  · push_neg at h1 h2 h3
    injection h with hq ha
    injection ha with ha
    subst hq
    subst ha
    exact ⟨h1, h2, rfl, h3.1, h3.2, rfl⟩

/-- Error inversion for `swap_a_to_b`: a failing swap leaves the pool as it
was (all checks precede the mutation in the source). -/
theorem swap_a_to_b_error_state {f : ℚ → ℚ} {p : LiquidityPool} {x : ℚ} {e : PoolError}
    (h : (swap_a_to_b f p x).2 = .error e) : (swap_a_to_b f p x).1 = p := by
  simp only [swap_a_to_b] at h ⊢
  split_ifs at h ⊢ <;> simp_all

/-- Error inversion for `swap_b_to_a`: a failing swap leaves the pool as it
was. -/
theorem swap_b_to_a_error_state {f : ℚ → ℚ} {p : LiquidityPool} {x : ℚ} {e : PoolError}
    (h : (swap_b_to_a f p x).2 = .error e) : (swap_b_to_a f p x).1 = p := by
  simp only [swap_b_to_a] at h ⊢
  split_ifs at h ⊢ <;> simp_all

/-- Error inversion for `add_liquidity`: a failing call leaves the pool as
it was. -/
theorem add_liquidity_error_state {p : LiquidityPool} {x y : ℚ} {e : PoolError}
    (h : (add_liquidity p x y).2 = .error e) : (add_liquidity p x y).1 = p := by
  simp only [add_liquidity] at h ⊢
  split_ifs at h ⊢ <;> simp_all

/-- Error inversion for `remove_liquidity`: a failing call leaves the pool
as it was. -/
theorem remove_liquidity_error_state {p : LiquidityPool} {x y : ℚ} {e : PoolError}
    (h : (remove_liquidity p x y).2 = .error e) : (remove_liquidity p x y).1 = p := by
  simp only [remove_liquidity] at h ⊢
  split_ifs at h ⊢ <;> simp_all

/-- Monotonicity consequence: the real arctangent is below the identity on
the nonnegative axis. -/
theorem arctan_le_self_of_nonneg {x : ℝ} (hx : 0 ≤ x) : Real.arctan x ≤ x := by
  have h1 : 0 ≤ Real.arctan x := by
    have h := Real.arctan_strictMono.monotone hx
    rwa [Real.arctan_zero] at h
  have h2 := Real.le_tan h1 (Real.arctan_lt_pi_div_two x)
  rwa [Real.tan_arctan] at h2

/-- C1: the claim says the per-step liquidity top-up adds
`token_b/2 - token_a` to `token_a` when `token_a < token_b/2` and the step
proceeds without error.  In the source, `add_liquidity_if_needed` passes
`dec!(0)` as the second amount to `add_liquidity`, which rejects any
non-positive amount, so whenever the top-up condition triggers the call
fails with the invalid-amount error ("Amounts must be positive"), nothing
is added, and the `?` aborts the whole `run`.  Here: a pool with
`token_a = 100 < 1000/2 = token_b/2` triggers the condition and the
top-up returns the error with the pool unchanged. -/
theorem C1_liquidity_top_up_always_errors :
    (100 : ℚ) < 1000 / 2 ∧
    add_liquidity_if_needed ⟨100, 1000, 1, 1/2, 1⟩ =
      (⟨100, 1000, 1, 1/2, 1⟩, .error .invalidAmount) := by
  constructor
  · norm_num
  · norm_num [add_liquidity_if_needed, add_liquidity]

/-- C3: the pricing formula at the balanced imbalance `r = 1` returns
exactly `p_ref`, for every `p_ref`, `alpha`, `beta`, and every atan
primitive that maps 0 to 0 (the source's `Decimal`/`f64` conversions
preserve zero and IEEE `atan(0) = 0`, so the real composite does). -/
theorem C3_equilibrium_fixed_point (f : ℚ → ℚ) (hf : f 0 = 0)
    (p_ref alpha beta : ℚ) : arpp f p_ref alpha beta 1 = p_ref := by
  simp [arpp, hf]

/-- Witness for C3 at `f = id`, `p_ref = 7`, `alpha = 1/2`, `beta = 3`. -/
theorem C3_equilibrium_fixed_point_witness :
    (fun x : ℚ => x) 0 = 0 ∧ arpp (fun x : ℚ => x) 7 (1/2) 3 1 = 7 :=
  ⟨rfl, C3_equilibrium_fixed_point (fun x => x) rfl 7 (1/2) 3⟩

/-- C4: every successful `swap_a_to_b(amount_a)` returning `amount_b`
increases the A balance by exactly `amount_a` and decreases the B balance
by exactly `amount_b`, for any atan primitive. -/
theorem C4_swap_a_to_b_exact_balance_deltas (f : ℚ → ℚ) (p q : LiquidityPool)
    (amount_a amount_b : ℚ)
    (h : swap_a_to_b f p amount_a = (q, .ok amount_b)) :
    q.token_a - p.token_a = amount_a ∧ p.token_b - q.token_b = amount_b := by
  obtain ⟨-, -, -, -, -, hq⟩ := swap_a_to_b_ok h
  subst hq
  constructor <;> ring

/-- Witness for C4: the balanced pool of the repository's own
`test_swap_a_to_b`, with the zero atan primitive (exact at `r = 1`). -/
theorem C4_swap_a_to_b_exact_balance_deltas_witness :
    (⟨1010, 990, 1, 1/2, 1⟩ : LiquidityPool).token_a -
      (⟨1000, 1000, 1, 1/2, 1⟩ : LiquidityPool).token_a = 10 ∧
    (⟨1000, 1000, 1, 1/2, 1⟩ : LiquidityPool).token_b -
      (⟨1010, 990, 1, 1/2, 1⟩ : LiquidityPool).token_b = 10 :=
  C4_swap_a_to_b_exact_balance_deltas (fun _ => 0) ⟨1000, 1000, 1, 1/2, 1⟩
    ⟨1010, 990, 1, 1/2, 1⟩ 10 10
    (by norm_num [swap_a_to_b, arpp, token_ratio])

/-- C5: from a pool with nonnegative balances, every operation leaves
nonnegative balances whatever its outcome.  The post-state component
covers both outcomes: on failure it is the unchanged pool, on success the
mutated one. -/
theorem C5_balances_stay_nonnegative (f : ℚ → ℚ) (p : LiquidityPool)
    (ha : 0 ≤ p.token_a) (hb : 0 ≤ p.token_b) :
    (∀ x y, 0 ≤ (add_liquidity p x y).1.token_a ∧
            0 ≤ (add_liquidity p x y).1.token_b) ∧
    (∀ x y, 0 ≤ (remove_liquidity p x y).1.token_a ∧
            0 ≤ (remove_liquidity p x y).1.token_b) ∧
    (∀ x, 0 ≤ (swap_a_to_b f p x).1.token_a ∧
          0 ≤ (swap_a_to_b f p x).1.token_b) ∧
    (∀ x, 0 ≤ (swap_b_to_a f p x).1.token_a ∧
          0 ≤ (swap_b_to_a f p x).1.token_b) ∧
    (∀ a b z1 z2, 0 ≤ (set_p_ref p a b z1 z2).token_a ∧
                  0 ≤ (set_p_ref p a b z1 z2).token_b) := by
  refine ⟨?_, ?_, ?_, ?_, ?_⟩
  · intro x y
    simp only [add_liquidity]
    split_ifs with h
    · exact ⟨ha, hb⟩
    · push_neg at h
      exact ⟨add_nonneg ha h.1.le, add_nonneg hb h.2.le⟩
  · intro x y
    simp only [remove_liquidity]
    split_ifs with h1 h2
    · exact ⟨ha, hb⟩
    · exact ⟨ha, hb⟩
    · push_neg at h2
      exact ⟨sub_nonneg.mpr h2.1, sub_nonneg.mpr h2.2⟩
  · intro x
    simp only [swap_a_to_b]
    split_ifs with h1 h2 h3
    · exact ⟨ha, hb⟩
    · exact ⟨ha, hb⟩
    · exact ⟨ha, hb⟩
    · push_neg at h1 h3
      exact ⟨add_nonneg ha h1.le, sub_nonneg.mpr h3.2⟩
  · intro x
    simp only [swap_b_to_a]
    split_ifs with h1 h2 h3
    · exact ⟨ha, hb⟩
    · exact ⟨ha, hb⟩
    · exact ⟨ha, hb⟩
    · push_neg at h1 h3
      exact ⟨sub_nonneg.mpr h3.2, add_nonneg hb h1.le⟩
  · intro a b z1 z2
    exact ⟨ha, hb⟩

/-- Witness for C5 at a concrete pool and the zero atan primitive. -/
theorem C5_balances_stay_nonnegative_witness :
    0 ≤ (add_liquidity ⟨3, 4, 1, 0, 0⟩ 1 1).1.token_a ∧
    0 ≤ (add_liquidity ⟨3, 4, 1, 0, 0⟩ 1 1).1.token_b :=
  (C5_balances_stay_nonnegative (fun _ => 0) ⟨3, 4, 1, 0, 0⟩
    (by norm_num) (by norm_num)).1 1 1

/-- C7: with both standard deviations zero the random walk is claimed to
return exactly the starting price for every starting price.  The source
ends with `.max(MIN_PRICE)` where `MIN_PRICE = 0.1`, so a starting price
below the floor comes back as `0.1`: at `p_ref = 1/20` (and zero draws,
as forced by zero standard deviations) the result is `1/10 ≠ 1/20`. -/
theorem C7_counterexample_min_price_floor :
    random_walk_price (1/20) 0 0 0 0 = 1/10 ∧ (1/10 : ℚ) ≠ 1/20 := by
  constructor
  · simp only [random_walk_price, mul_zero, zero_mul, add_zero, abs_zero]
    rw [max_eq_right (by norm_num)]
  · norm_num

/-- C7 amended: with both standard deviations exactly zero the walk is an
exact no-op for every starting price at or above the `MIN_PRICE` floor
`0.1` (and returns the floor below it), whatever the normal draws. -/
theorem C7_amended_no_op_above_floor (p z1 z2 : ℚ) (h : 1/10 ≤ p) :
    random_walk_price p 0 0 z1 z2 = p := by
  simp only [random_walk_price, mul_zero, zero_mul, add_zero, abs_zero]
  exact max_eq_left (by linarith)

/-- Witness for C7 amended at `p = 100` and arbitrary nonzero draws. -/
theorem C7_amended_no_op_above_floor_witness :
    random_walk_price 100 0 0 7 (-3) = 100 :=
  C7_amended_no_op_above_floor 100 7 (-3) (by norm_num)

/-- C9: a simulation constructed with zero iterations returns, for every
atan primitive, sqrt primitive, strategy, randomness and pool, the default
result, whose four numeric fields are zero and whose metrics hold no steps
and zero accumulators. -/
theorem C9_zero_iterations_default_result (f : ℚ → ℚ) (sq : ℚ → Option ℚ)
    (strat : Strategy) (walk : ℕ → ℕ → ℚ × ℚ) (pool : LiquidityPool)
    (steps : ℕ) (alpha beta : ℚ) :
    run f sq strat walk ⟨pool, 0, steps, alpha, beta⟩ =
      .ok SimulationResult.defaultResult ∧
    SimulationResult.defaultResult.average_price_change = 0 ∧
    SimulationResult.defaultResult.average_liquidity_change = 0 ∧
    SimulationResult.defaultResult.max_price = 0 ∧
    SimulationResult.defaultResult.min_price = 0 ∧
    SimulationResult.defaultResult.metrics.steps = [] ∧
    SimulationResult.defaultResult.metrics.price_volatility = 0 ∧
    SimulationResult.defaultResult.metrics.liquidity_depth = 0 ∧
    SimulationResult.defaultResult.metrics.trading_volume = 0 ∧
    SimulationResult.defaultResult.metrics.impermanent_loss = 0 := by
  refine ⟨?_, rfl, rfl, rfl, rfl, rfl, rfl, rfl, rfl, rfl⟩
  simp [run]

/-- C10: whenever one of the four pool operations returns an error, the
pool is exactly as before the call (all five fields, since the post-state
equals the pre-state as a record). -/
theorem C10_failed_operations_atomic (f : ℚ → ℚ) (p : LiquidityPool) :
    (∀ x y e, (add_liquidity p x y).2 = .error e → (add_liquidity p x y).1 = p) ∧
    (∀ x y e, (remove_liquidity p x y).2 = .error e → (remove_liquidity p x y).1 = p) ∧
    (∀ x e, (swap_a_to_b f p x).2 = .error e → (swap_a_to_b f p x).1 = p) ∧
    (∀ x e, (swap_b_to_a f p x).2 = .error e → (swap_b_to_a f p x).1 = p) :=
  ⟨fun _ _ _ h => add_liquidity_error_state h,
   fun _ _ _ h => remove_liquidity_error_state h,
   fun _ _ h => swap_a_to_b_error_state h,
   fun _ _ h => swap_b_to_a_error_state h⟩

/-- Witness for C10: each operation applied at an input that fails (zero
amounts, or removing more than the balance) leaves the concrete pool
unchanged. -/
theorem C10_failed_operations_atomic_witness :
    (add_liquidity ⟨5, 6, 1, 1, 1⟩ 0 1).1 = ⟨5, 6, 1, 1, 1⟩ ∧
    (remove_liquidity ⟨5, 6, 1, 1, 1⟩ 7 1).1 = ⟨5, 6, 1, 1, 1⟩ ∧
    (swap_a_to_b (fun _ => 0) ⟨5, 6, 1, 1, 1⟩ 0).1 = ⟨5, 6, 1, 1, 1⟩ ∧
    (swap_b_to_a (fun _ => 0) ⟨5, 6, 1, 1, 1⟩ 0).1 = ⟨5, 6, 1, 1, 1⟩ :=
  ⟨(C10_failed_operations_atomic (fun _ => 0) ⟨5, 6, 1, 1, 1⟩).1 0 1
      .invalidAmount (by norm_num [add_liquidity]),
   (C10_failed_operations_atomic (fun _ => 0) ⟨5, 6, 1, 1, 1⟩).2.1 7 1
      .insufficientLiquidity (by norm_num [remove_liquidity]),
   (C10_failed_operations_atomic (fun _ => 0) ⟨5, 6, 1, 1, 1⟩).2.2.1 0
      .invalidAmount (by norm_num [swap_a_to_b]),
   (C10_failed_operations_atomic (fun _ => 0) ⟨5, 6, 1, 1, 1⟩).2.2.2 0
      .invalidAmount (by norm_num [swap_b_to_a])⟩

/-- C2: the claim asserts `swap_b_to_a` quotes at `r = token_a/token_b`
while `swap_a_to_b` at the same instant quotes at the reciprocal
`r = token_b/token_a`.  The source passes `token_ratio(token_a, token_b)`
in both directions, so the reciprocal part is false.  Concretely, at the
pool (2000, 1000) with `p_ref = 1`, `alpha = 1/2`, `beta = 1` and the
identity atan primitive, `swap_a_to_b(1)` delivers `3/2` — the quote at
`token_a/token_b = 2` — whereas the quote at `token_b/token_a = 1/2` would
be `3/4`; hence no swap of the claimed shape exists, refuting the claim's
universally quantified reciprocal-quote clause. -/
theorem C2_counterexample_same_ratio :
    swap_a_to_b (fun x => x) ⟨2000, 1000, 1, 1/2, 1⟩ 1 =
      (⟨2001, 1997/2, 1, 1/2, 1⟩, .ok (3/2)) ∧
    arpp (fun x => x) 1 (1/2) 1 ((1000 : ℚ) / 2000) * 1 = 3/4 ∧
    ¬ (∀ (f : ℚ → ℚ) (p q : LiquidityPool) (x b : ℚ),
        swap_a_to_b f p x = (q, .ok b) →
        b = arpp f p.p_ref p.alpha p.beta (p.token_b / p.token_a) * x) := by
  refine ⟨?_, ?_, ?_⟩
  · norm_num [swap_a_to_b, arpp, token_ratio]
  · norm_num [arpp]
  · intro hclaim
    have h := hclaim (fun x => x) ⟨2000, 1000, 1, 1/2, 1⟩
        ⟨2001, 1997/2, 1, 1/2, 1⟩ 1 (3/2)
        (by norm_num [swap_a_to_b, arpp, token_ratio])
    norm_num [arpp] at h

/-- C2 amended: on a pool with both balances positive, `swap_b_to_a`
quotes through the pricing formula at `r = token_a/token_b` and returns
`amount_b * price`, and `swap_a_to_b` at the same instant quotes at the
same ratio `r = token_a/token_b` (not its reciprocal). -/
theorem C2_amended_quotes_same_ratio (f : ℚ → ℚ) (p : LiquidityPool)
    (h0a : 0 < p.token_a) (h0b : 0 < p.token_b) :
    (∀ x q a, swap_b_to_a f p x = (q, .ok a) →
      a = arpp f p.p_ref p.alpha p.beta (p.token_a / p.token_b) * x) ∧
    (∀ y q b, swap_a_to_b f p y = (q, .ok b) →
      b = arpp f p.p_ref p.alpha p.beta (p.token_a / p.token_b) * y) := by
  constructor
  · intro x q a h
    exact (swap_b_to_a_ok h).2.2.1
  · intro y q b h
    exact (swap_a_to_b_ok h).2.2.1

/-- Witness for C2 amended at the pool (1000, 2000) with the identity atan
primitive: `swap_b_to_a(4)` returns `3 = (3/4) * 4` and `swap_a_to_b(8)`
returns `6 = (3/4) * 8`, both quoted at `r = 1000/2000`. -/
theorem C2_amended_quotes_same_ratio_witness :
    ((3 : ℚ) = arpp (fun x => x) 1 (1/2) 1 ((1000 : ℚ) / 2000) * 4) ∧
    ((6 : ℚ) = arpp (fun x => x) 1 (1/2) 1 ((1000 : ℚ) / 2000) * 8) :=
  ⟨(C2_amended_quotes_same_ratio (fun x => x) ⟨1000, 2000, 1, 1/2, 1⟩
      (by norm_num) (by norm_num)).1 4 ⟨997, 2004, 1, 1/2, 1⟩ 3
      (by norm_num [swap_b_to_a, arpp, token_ratio]),
   (C2_amended_quotes_same_ratio (fun x => x) ⟨1000, 2000, 1, 1/2, 1⟩
      (by norm_num) (by norm_num)).2 8 ⟨1008, 1994, 1, 1/2, 1⟩ 6
      (by norm_num [swap_a_to_b, arpp, token_ratio])⟩

/-- C6: the claim says `RandomStrategy::execute` tolerates an
insufficient-liquidity swap failure and still returns Ok.  The source
applies `?` to each swap call, so the failure is returned to the caller
(the Monte Carlo driver is what logs and continues).  With the zero atan
primitive, swap probability 1, max amount 400, the pool (1, 1000) and
draws `q = 0`, `u = 1/2`, direction B→A, the attempted `swap_b_to_a(200)`
fails with the insufficient-liquidity error and `execute` returns exactly
that error, refuting the never-propagates claim. -/
theorem C6_counterexample_error_propagates :
    (RandomStrategy.execute (fun _ => 0) ⟨1, 400⟩ ⟨1, 1000, 1, 1/2, 1⟩
        0 (1/2) false).2 = .error .insufficientSwap ∧
    ¬ (∀ (f : ℚ → ℚ) (s : RandomStrategy) (p : LiquidityPool) (q u : ℚ)
          (dir : Bool),
        (RandomStrategy.execute f s p q u dir).2 ≠ .error .insufficientSwap) := by
  constructor
  · norm_num [RandomStrategy.execute, swap_b_to_a, arpp, token_ratio,
      min_def, Except.map]
  · intro hclaim
    exact hclaim (fun _ => 0) ⟨1, 400⟩ ⟨1, 1000, 1, 1/2, 1⟩ 0 (1/2) false
      (by norm_num [RandomStrategy.execute, swap_b_to_a, arpp, token_ratio,
        min_def, Except.map])

/-- C6 amended: when the random draw selects a swap and that swap fails,
`RandomStrategy::execute` propagates the very same error to its caller and
leaves the pool unchanged; tolerating and logging happens in the Monte
Carlo driver, not in the strategy. -/
theorem C6_amended_error_propagates (f : ℚ → ℚ) (s : RandomStrategy)
    (p : LiquidityPool) (q u : ℚ) (dir : Bool) (e : PoolError)
    (hq : q < s.swap_probability)
    (h : (if dir then
            swap_a_to_b f p
              (min (u * s.max_swap_amount) (min (p.token_a / 2) s.max_swap_amount))
          else
            swap_b_to_a f p
              (min (u * s.max_swap_amount) (min (p.token_b / 2) s.max_swap_amount))).2
        = .error e) :
    (RandomStrategy.execute f s p q u dir).2 = .error e ∧
    (RandomStrategy.execute f s p q u dir).1 = p := by
  cases dir
  · simp only [Bool.false_eq_true, if_false] at h
    constructor
    · simp only [RandomStrategy.execute, hq, if_true, Bool.false_eq_true,
        if_false, h, Except.map]
    · simp only [RandomStrategy.execute, hq, if_true, Bool.false_eq_true,
        if_false]
      exact swap_b_to_a_error_state h
  · simp only [if_true] at h
    constructor
    · simp only [RandomStrategy.execute, hq, if_true, h, Except.map]
    · simp only [RandomStrategy.execute, hq, if_true]
      exact swap_a_to_b_error_state h

/-- Witness for C6 amended at the concrete failing input of the
counterexample. -/
theorem C6_amended_error_propagates_witness :
    (RandomStrategy.execute (fun _ => 0) ⟨1, 400⟩ ⟨1, 1000, 1, 1/2, 1⟩
        0 (1/2) false).2 = .error .insufficientSwap ∧
    (RandomStrategy.execute (fun _ => 0) ⟨1, 400⟩ ⟨1, 1000, 1, 1/2, 1⟩
        0 (1/2) false).1 = ⟨1, 1000, 1, 1/2, 1⟩ :=
  C6_amended_error_propagates (fun _ => 0) ⟨1, 400⟩ ⟨1, 1000, 1, 1/2, 1⟩
    0 (1/2) false .insufficientSwap (by norm_num)
    (by norm_num [swap_b_to_a, arpp, token_ratio, min_def])

/-- C8: the claim asserts `|price(r) - p_ref| = |p_ref - price(1/r)|` for
every `r > 0`.  The formula's odd symmetry is additive around `r = 1`
(`r ↦ 2 - r`), not multiplicative (`r ↦ 1/r`): at `p_ref = 1`,
`alpha = 1/2`, `beta = 1`, `r = 2` the two magnitudes are
`arctan(1)/2 = π/8` and `arctan(1/2)/2`, which differ by more than `1/10`
— far beyond any numeric tolerance of the `f64` atan detour.  Stated over
the source formula read with the exact real arctangent. -/
theorem C8_counterexample_reciprocal_asymmetry :
    |arppReal 1 (1/2) 1 2 - 1| ≠ |1 - arppReal 1 (1/2) 1 (1/2)| ∧
    1/10 < |arppReal 1 (1/2) 1 2 - 1| - |1 - arppReal 1 (1/2) 1 (1/2)| := by
  have hpi := Real.pi_gt_d6
  have h2 : arppReal 1 (1/2) 1 2 - 1 = (1/2) * Real.arctan 1 := by
    have ha : (1 : ℝ) * (2 - 1) = 1 := by norm_num
    rw [arppReal, ha]; ring
  have h3 : 1 - arppReal 1 (1/2) 1 (1/2) = (1/2) * Real.arctan (1/2) := by
    have ha : (1 : ℝ) * (1/2 - 1) = -(1/2) := by norm_num
    rw [arppReal, ha, Real.arctan_neg]; ring
  have hb : Real.arctan (1/2) ≤ 1/2 := arctan_le_self_of_nonneg (by norm_num)
  have hpos : 0 ≤ Real.arctan (1/2) := by
    have h := Real.arctan_strictMono.monotone (by norm_num : (0:ℝ) ≤ 1/2)
    rwa [Real.arctan_zero] at h
  rw [h2, h3, Real.arctan_one,
    abs_of_nonneg (by positivity),
    abs_of_nonneg (by linarith : (0:ℝ) ≤ (1/2) * Real.arctan (1/2))]
  constructor
  · exact ne_of_gt (by linarith)
  · linarith

/-- C8 amended: the pricing curve's odd symmetry holds additively around
the equilibrium ratio: for every `d`, the deviations
`price(1 + d) - p_ref` and `p_ref - price(1 - d)` are exactly equal, for
every odd atan primitive (the source composite is odd: both conversions
and `libm::atan` are sign-symmetric). -/
theorem C8_amended_additive_odd_symmetry (f : ℚ → ℚ)
    (hodd : ∀ x, f (-x) = -f x) (p_ref alpha beta d : ℚ) :
    arpp f p_ref alpha beta (1 + d) - p_ref =
      p_ref - arpp f p_ref alpha beta (1 - d) := by
  have h1 : beta * (1 + d - 1) = beta * d := by ring
  have h2 : beta * (1 - d - 1) = -(beta * d) := by ring
  rw [arpp, arpp, h1, h2, hodd]
  ring

/-- Witness for C8 amended at `f = id`, `p_ref = 3`, `alpha = 1`,
`beta = 2`, `d = 5`: both sides equal 30. -/
theorem C8_amended_additive_odd_symmetry_witness :
    arpp (fun x : ℚ => x) 3 1 2 (1 + 5) - 3 =
      3 - arpp (fun x : ℚ => x) 3 1 2 (1 - 5) :=
  C8_amended_additive_odd_symmetry (fun x => x) (fun _ => rfl) 3 1 2 5
